import Mathlib

/-
Verification of the concurrency-and-consistency layer of the
university-management backend (backend/utils/database.py).

Shallow embedding conventions:
* Python datetimes and float timestamps are modelled as natural numbers
  (seconds); elapsed time uses truncated subtraction exactly where the
  source computes a timedelta.
* A Python value that may be None is modelled as an Option.
* A Python call that may raise is modelled as Except, with exception
  identity carried as a code.
* MongoDB collections are modelled as lists of records carrying the
  fields the source filters on or mutates.
-/

/- ===================== Query cache (QueryCache) ===================== -/

/-- Cache keys are character lists so that the substring test of
Python `pattern in key` is explicit. -/
abbrev CKey := List Char

/-- One stored entry of `QueryCache.cache`: the stored Python value
(possibly None) together with the timestamp recorded by `set`. -/
abbrev CEntry (α : Type) := Option α × Nat

/-- `QueryCache.__init__`: a dict from keys to (value, timestamp) and a TTL. -/
structure QueryCache (α : Type) where
  cache : List (CKey × CEntry α)
  ttl : Nat
deriving DecidableEq

/-- Python dict lookup: first (unique) binding of the key. -/
def dictFind (l : List (CKey × CEntry α)) (k : CKey) : Option (CEntry α) :=
  (l.find? (fun p => p.fst = k)).map (·.snd)

/-- Python dict assignment `d[k] = v`: replace the existing binding or append. -/
def dictInsert (k : CKey) (v : CEntry α) : List (CKey × CEntry α) → List (CKey × CEntry α)
  | [] => [(k, v)]
  | (k2, v2) :: rest =>
      if k2 = k then (k, v) :: rest else (k2, v2) :: dictInsert k v rest

/-- Python `del d[k]`. -/
def dictErase (k : CKey) : List (CKey × CEntry α) → List (CKey × CEntry α)
  | [] => []
  | (k2, v2) :: rest =>
      if k2 = k then rest else (k2, v2) :: dictErase k rest

/-- Python substring test `pat in key` for strings. -/
def strIn (pat : List Char) : List Char → Bool
  | [] => pat.isEmpty
  | c :: rest => pat.isPrefixOf (c :: rest) || strIn pat rest

/-- `QueryCache.get`: on a bound key, return the stored value while it is
younger than the TTL, otherwise delete the entry and miss; an unbound key
misses.  The returned Python object is None both on a miss and when the
stored value was None. -/
def QueryCache.get (c : QueryCache α) (now : Nat) (key : CKey) :
    Option α × QueryCache α :=
  match dictFind c.cache key with
  | some (data, timestamp) =>
      if now - timestamp < c.ttl then (data, c)
      else (none, { c with cache := dictErase key c.cache })
  | none => (none, c)

/-- `QueryCache.set`: store the value with the current time. -/
def QueryCache.set (c : QueryCache α) (key : CKey) (value : Option α) (now : Nat) :
    QueryCache α :=
  { c with cache := dictInsert key (value, now) c.cache }

/-- `QueryCache.invalidate_pattern`: collect every key containing the
pattern, then delete those keys. -/
def QueryCache.invalidate_pattern (c : QueryCache α) (pattern : CKey) : QueryCache α :=
  let keys_to_remove := (c.cache.map (·.fst)).filter (fun k => strIn pattern k)
  { c with cache := keys_to_remove.foldl (fun l k => dictErase k l) c.cache }

/-- `DatabaseUtils.cached_query` wrapper body: consult the cache, return a
hit that is not None, otherwise run the function and cache its result. -/
def cached_query (c : QueryCache α) (now : Nat) (key : CKey)
    (func : Unit → Option α) : Option α × QueryCache α :=
  match QueryCache.get c now key with
  | (some v, c1) => (some v, c1)
  | (none, c1) =>
      let result := func ()
      (result, c1.set key result now)

/- Cache helper lemmas -/

theorem dictFind_dictInsert_self (l : List (CKey × CEntry α)) (k : CKey) (v : CEntry α) :
    dictFind (dictInsert k v l) k = some v := by
  induction l with
  | nil => simp [dictFind, dictInsert, List.find?]
  | cons h t ih =>
      obtain ⟨k2, v2⟩ := h
      by_cases hk : k2 = k
      · simp [dictInsert, hk, dictFind, List.find?]
      · simpa [dictInsert, hk, dictFind, List.find?] using ih

theorem dictFind_dictErase_self (l : List (CKey × CEntry α)) (k : CKey)
    (hnd : (l.map (·.fst)).Nodup) :
    dictFind (dictErase k l) k = none := by
  induction l with
  | nil => simp [dictErase, dictFind, List.find?]
  | cons h t ih =>
      obtain ⟨k2, v2⟩ := h
      simp only [List.map_cons, List.nodup_cons] at hnd
      by_cases hk : k2 = k
      · subst hk
        have ht : dictErase k2 ((k2, v2) :: t) = t := by simp [dictErase]
        rw [ht]
        -- every binding in t has a key different from k2
        simp only [dictFind, Option.map_eq_none', List.find?_eq_none, decide_eq_true_eq]
        intro p hp hc
        exact hnd.1 (hc ▸ List.mem_map_of_mem (fun x => x.fst) hp)
      · simpa [dictErase, hk, dictFind, List.find?] using ih hnd.2

theorem strIn_iff (pat key : List Char) :
    strIn pat key = true ↔ ∃ s t, key = s ++ pat ++ t := by
  induction key with
  | nil =>
      simp only [strIn, List.isEmpty_iff]
      constructor
      · rintro rfl; exact ⟨[], [], rfl⟩
      · rintro ⟨s, t, h⟩
        rcases List.append_eq_nil.mp (List.append_eq_nil.mp h.symm).1 with ⟨-, h2⟩
        exact h2
  | cons c rest ih =>
      simp only [strIn, Bool.or_eq_true]
      constructor
      · rintro (hpre | htail)
        · obtain ⟨t0, ht0⟩ := (List.isPrefixOf_iff_prefix).mp hpre
          exact ⟨[], t0, by simp [← ht0]⟩
        · obtain ⟨s, t, hst⟩ := ih.mp htail
          exact ⟨c :: s, t, by simp [hst]⟩
      · rintro ⟨s, t, hst⟩
        match s, hst with
        | [], hst =>
            left
            exact (List.isPrefixOf_iff_prefix).mpr ⟨t, by simpa using hst.symm⟩
        | c2 :: s2, hst =>
            right
            apply ih.mpr
            refine ⟨s2, t, ?_⟩
            simpa using congrArg List.tail hst

/- =========== Optimistic locking (optimistic_lock_update) =========== -/

/-- A document participating in optimistic locking: a version counter,
the `updated_at` stamp, and the remaining fields as a string-keyed map. -/
structure VDoc where
  version : Nat
  updatedAt : Nat
  fields : List (String × Nat)
deriving DecidableEq

/-- A collection: documents keyed by their `_id`. -/
abbrev VColl := List (Nat × VDoc)

/-- `collection.find_one({"_id": i})`: first document with the id. -/
def find_one (coll : VColl) (i : Nat) : Option VDoc :=
  (coll.find? (fun p => p.fst = i)).map (·.snd)

/-- Set one field of the non-version field map. -/
def fieldSet (k : String) (v : Nat) : List (String × Nat) → List (String × Nat)
  | [] => [(k, v)]
  | (k2, v2) :: rest =>
      if k2 = k then (k, v) :: rest else (k2, v2) :: fieldSet k v rest

/-- The `$set` payload `update_with_version`: the caller's update data plus
`version := current_version + 1` and `updated_at := now`, applied to a document. -/
def applySet (d : VDoc) (update_data : List (String × Nat)) (newVersion now : Nat) : VDoc :=
  { version := newVersion,
    updatedAt := now,
    fields := update_data.foldl (fun fs kv => fieldSet kv.fst kv.snd fs) d.fields }

/-- `collection.update_one({"_id": i, "version": expected}, {"$set": ...})`:
apply the set payload to the first document matching both the id and the
expected version; the second component is `modified_count`. -/
def update_one_cas (coll : VColl) (i expected : Nat)
    (update_data : List (String × Nat)) (newVersion now : Nat) : VColl × Nat :=
  match coll with
  | [] => ([], 0)
  | (j, d) :: rest =>
      if j = i ∧ d.version = expected then
        ((j, applySet d update_data newVersion now) :: rest, 1)
      else
        let r := update_one_cas rest i expected update_data newVersion now
        ((j, d) :: r.fst, r.snd)

inductive OluErr where
  | notFound        -- ValueError("Document not found")
  | lockExhausted   -- OptimisticLockException
deriving DecidableEq

/-- Returned value or raised exception of one call. -/
inductive OluOutcome where
  | ok (doc : Option VDoc)
  | exn (e : OluErr)
deriving DecidableEq

/-- Observable outcome of one `optimistic_lock_update` call: the returned
value or raised exception, the final collection, the number of loop
iterations entered, and the backoff sleeps performed (in units of 0.1 s,
so attempt `a` sleeps `a + 1`). -/
structure OluOut where
  outcome : OluOutcome
  coll : VColl
  attempts : Nat
  sleeps : List Nat
deriving DecidableEq

/-- One iteration of `for attempt in range(max_retries)` in
`optimistic_lock_update`.  `interf` is the interference of concurrent
writers, applied between the read and the conditional write of each
attempt; `fuel` is the number of iterations left (`max_retries - attempt`).
Running out of fuel is the `raise OptimisticLockException` after the loop. -/
def oluGo (interf : Nat → VColl → VColl) (i : Nat)
    (update_data : List (String × Nat)) (now max_retries : Nat) :
    Nat → Nat → VColl → List Nat → OluOut
  | attempt, 0, coll, sleeps => ⟨.exn .lockExhausted, coll, attempt, sleeps⟩
  | attempt, fuel + 1, coll, sleeps =>
      match find_one coll i with
      | none =>
          -- raise ValueError, caught by the generic except handler
          if attempt = max_retries - 1 then
            ⟨.exn .notFound, coll, attempt + 1, sleeps⟩
          else
            oluGo interf i update_data now max_retries
              (attempt + 1) fuel coll (sleeps ++ [attempt + 1])
      | some d =>
          let current_version := d.version
          let coll2 := interf attempt coll
          let r := update_one_cas coll2 i current_version update_data
                     (current_version + 1) now
          if r.snd = 1 then
            ⟨.ok (find_one r.fst i), r.fst, attempt + 1, sleeps⟩
          else if attempt = max_retries - 1 then
            ⟨.exn .lockExhausted, r.fst, attempt + 1, sleeps⟩
          else
            oluGo interf i update_data now max_retries
              (attempt + 1) fuel r.fst (sleeps ++ [attempt + 1])

/-- `DatabaseUtils.optimistic_lock_update`. -/
def optimistic_lock_update (interf : Nat → VColl → VColl) (coll : VColl)
    (i : Nat) (update_data : List (String × Nat)) (now max_retries : Nat) : OluOut :=
  oluGo interf i update_data now max_retries 0 max_retries coll []

/-- In the absent-document branch nothing mutates the collection, so the
loop runs all the way to the retry bound, sleeping after each non-final
attempt, and finally re-raises the not-found error. -/
theorem oluGo_absent (interf : Nat → VColl → VColl) (i : Nat)
    (update_data : List (String × Nat)) (now max_retries : Nat) :
    ∀ fuel attempt coll sleeps, find_one coll i = none →
      1 ≤ fuel → attempt + fuel = max_retries →
      oluGo interf i update_data now max_retries attempt fuel coll sleeps
        = ⟨.exn .notFound, coll, max_retries,
           sleeps ++ (List.range (fuel - 1)).map (fun j => attempt + 1 + j)⟩ := by
  intro fuel
  induction fuel with
  | zero => intro attempt coll sleeps _ h1 _; omega
  | succ f ih =>
      intro attempt coll sleeps habs _ htot
      match f, htot with
      | 0, htot =>
          have hlast : attempt = max_retries - 1 := by omega
          have hmr : max_retries - 1 + 1 = max_retries := by omega
          simp [oluGo, habs, hlast, hmr]
      | f2 + 1, htot =>
          have hnotlast : ¬ (attempt = max_retries - 1) := by omega
          rw [oluGo]
          simp only [habs, hnotlast, if_false]
          rw [ih (attempt + 1) coll (sleeps ++ [attempt + 1]) habs (by omega) (by omega)]
          have hfg : (fun j => attempt + 1 + 1 + j) = ((fun j => attempt + 1 + j) ∘ Nat.succ) := by
            funext j
            simp only [Function.comp_apply]
            omega
          simp only [OluOut.mk.injEq, Nat.add_sub_cancel, List.range_succ_eq_map,
            List.map_cons, List.map_map, List.append_assoc, List.singleton_append,
            hfg, Nat.add_zero]

/-- A conditional update whose version filter matches no document is a
no-op: zero documents modified and the collection unchanged. -/
theorem update_one_cas_miss (coll : VColl) (i expected : Nat)
    (update_data : List (String × Nat)) (newVersion now : Nat)
    (h : ∀ d, (i, d) ∈ coll → d.version ≠ expected) :
    update_one_cas coll i expected update_data newVersion now = (coll, 0) := by
  induction coll with
  | nil => rfl
  | cons p rest ih =>
      obtain ⟨j, d⟩ := p
      have hcond : ¬ (j = i ∧ d.version = expected) := by
        rintro ⟨rfl, hv⟩
        exact h d (List.mem_cons_self _ _) hv
      rw [update_one_cas, if_neg hcond,
        ih (fun d2 hd2 => h d2 (List.mem_cons_of_mem _ hd2))]

/-- A conditional update whose version filter matches rewrites exactly the
first matching document, applying the set payload, and reports one
modified document. -/
theorem update_one_cas_hit (pre post : VColl) (i : Nat) (d : VDoc)
    (update_data : List (String × Nat)) (newVersion now : Nat)
    (hpre : ∀ p ∈ pre, ¬ (p.fst = i ∧ p.snd.version = d.version)) :
    update_one_cas (pre ++ (i, d) :: post) i d.version update_data newVersion now
      = (pre ++ (i, applySet d update_data newVersion now) :: post, 1) := by
  induction pre with
  | nil => simp [update_one_cas]
  | cons p rest ih =>
      obtain ⟨j, d2⟩ := p
      have hcond : ¬ (j = i ∧ d2.version = d.version) :=
        hpre (j, d2) (List.mem_cons_self _ _)
      have hih := ih (fun q hq => hpre q (List.mem_cons_of_mem _ hq))
      simp only [List.cons_append, update_one_cas, if_neg hcond, List.append_eq, hih]

/-- `find_one` returns the first document carrying the requested id. -/
theorem find_one_first (pre post : VColl) (i : Nat) (d : VDoc)
    (hpre : ∀ p ∈ pre, p.fst ≠ i) :
    find_one (pre ++ (i, d) :: post) i = some d := by
  induction pre with
  | nil => simp [find_one, List.find?]
  | cons p rest ih =>
      obtain ⟨j, d2⟩ := p
      have hj : ¬ ((fun q : Nat × VDoc => decide (q.fst = i)) (j, d2) = true) := by
        simpa using hpre (j, d2) (List.mem_cons_self _ _)
      simp only [find_one, List.cons_append]
      rw [@List.find?_cons_of_neg _ (fun q : Nat × VDoc => decide (q.fst = i))
        (j, d2) (rest ++ (i, d) :: post) hj]
      simpa only [find_one] using ih (fun q hq => hpre q (List.mem_cons_of_mem _ hq))

/-- With the target document present and no interference, the very first
attempt of the loop succeeds: the conditional update is applied once,
bumping the version by one, and the updated document is returned with no
backoff sleeps. -/
theorem oluGo_success_first (i : Nat) (u : List (String × Nat)) (now : Nat)
    (pre post : VColl) (d : VDoc) (max_retries : Nat)
    (hpre : ∀ p ∈ pre, p.fst ≠ i) (hmr : 1 ≤ max_retries) :
    optimistic_lock_update (fun _ c => c) (pre ++ (i, d) :: post) i u now max_retries
      = ⟨.ok (some (applySet d u (d.version + 1) now)),
         pre ++ (i, applySet d u (d.version + 1) now) :: post, 1, []⟩ := by
  obtain ⟨m, rfl⟩ : ∃ m, max_retries = m + 1 := ⟨max_retries - 1, by omega⟩
  have hpre2 : ∀ p ∈ pre, ¬ (p.fst = i ∧ p.snd.version = d.version) :=
    fun p hp hc => hpre p hp hc.1
  simp only [optimistic_lock_update, oluGo, find_one_first pre post i d hpre,
    update_one_cas_hit pre post i d u (d.version + 1) now hpre2,
    find_one_first pre post i (applySet d u (d.version + 1) now) hpre]
  simp

/- ====== Pessimistic distributed lock (pessimistic_lock_operation) ====== -/

/-- One document of the `locks` collection. -/
structure LockRow where
  id : Nat            -- _id: fresh ObjectId per acquisition attempt
  lock_key : String
  acquired_at : Nat
  expires_at : Nat    -- utcnow().timestamp() + timeout
  thread_id : Nat
deriving DecidableEq

/-- `locks.delete_many({"lock_key": k, "expires_at": {"$lt": now}})`. -/
def locks_purge_expired (locks : List LockRow) (k : String) (now : Nat) : List LockRow :=
  locks.filter (fun r => ¬ (r.lock_key = k ∧ r.expires_at < now))

/-- `locks.insert_one(lock_doc)`: the only index on `locks` is the
implicit unique `_id`, so the insert fails (DuplicateKeyError) exactly on
an `_id` collision; duplicate `lock_key` values are accepted. -/
def locks_insert_one (locks : List LockRow) (row : LockRow) : Option (List LockRow) :=
  if locks.any (fun r => r.id = row.id) then none else some (locks ++ [row])

/-- `locks.delete_one({"_id": lock_id})`: remove the first row with the id. -/
def locks_delete_one (locks : List LockRow) (lock_id : Nat) : List LockRow :=
  match locks with
  | [] => []
  | r :: rest =>
      if r.id = lock_id then rest else r :: locks_delete_one rest lock_id

/-- The acquisition phase of `pessimistic_lock_operation`: purge the
expired rows of the key, then try to insert the fresh lock document;
`none` is the DuplicateKeyError path re-raised as OperationFailure. -/
def lock_acquire (locks : List LockRow) (lock_key : String)
    (lock_id now timeout thread_id : Nat) : Option (List LockRow) :=
  locks_insert_one (locks_purge_expired locks lock_key now)
    ⟨lock_id, lock_key, now, now + timeout, thread_id⟩

/-- Result of one `pessimistic_lock_operation` call. -/
inductive PessOutcome (α : Type) where
  | ok (a : α)        -- value returned by operation()
  | bodyExn (e : Nat) -- exception raised by operation(), re-raised
  | lockFailed        -- OperationFailure from the DuplicateKeyError path
deriving DecidableEq

/-- `DatabaseUtils.pessimistic_lock_operation`: acquire, run the body,
and in a `finally` block delete the specific lock row by `_id` on every
exit path. -/
def pessimistic_lock_operation (locks : List LockRow) (lock_key : String)
    (lock_id now timeout thread_id : Nat) (body : Except Nat α) :
    PessOutcome α × List LockRow :=
  match lock_acquire locks lock_key lock_id now timeout thread_id with
  | none =>
      (.lockFailed, locks_delete_one (locks_purge_expired locks lock_key now) lock_id)
  | some locks2 =>
      match body with
      | .ok a => (.ok a, locks_delete_one locks2 lock_id)
      | .error e => (.bodyExn e, locks_delete_one locks2 lock_id)

/-- Deleting by an id that occurs only as the final appended row removes
exactly that row. -/
theorem locks_delete_one_append (locks : List LockRow) (row : LockRow)
    (h : ∀ r ∈ locks, r.id ≠ row.id) :
    locks_delete_one (locks ++ [row]) row.id = locks := by
  induction locks with
  | nil => simp [locks_delete_one]
  | cons r rest ih =>
      have hr : r.id ≠ row.id := h r (List.mem_cons_self _ _)
      have hih := ih (fun q hq => h q (List.mem_cons_of_mem _ hq))
      simp only [List.cons_append, locks_delete_one, if_neg hr, List.append_eq, hih]

/- ================== Index manager (create_indexes) ================== -/

/-- One key of an index declaration: ascending, descending, or text. -/
inductive IndexKey where
  | asc (field : String)
  | desc (field : String)
  | text (field : String)
deriving DecidableEq

/-- One `create_index` call: target collection, key list, uniqueness.
The background/sparse/language options are irrelevant to uniqueness and
are not modelled. -/
structure IndexSpec where
  collection : String
  keys : List IndexKey
  unique : Bool
deriving DecidableEq

/-- Every index declared by `DatabaseUtils.create_indexes`, in source
order, split per collection.  A single-field call `create_index("f")` is
an ascending index on `f`. -/
def users_indexes : List IndexSpec := [
  ⟨"users", [.asc "username"], true⟩,
  ⟨"users", [.asc "email"], true⟩,
  ⟨"users", [.asc "role"], false⟩,
  ⟨"users", [.asc "is_active"], false⟩,
  ⟨"users", [.asc "date_joined"], false⟩,
  ⟨"users", [.asc "last_login"], false⟩,
  ⟨"users", [.text "first_name", .text "last_name"], false⟩,
  ⟨"users", [.asc "role", .asc "is_active"], false⟩
]

def courses_indexes : List IndexSpec := [
  ⟨"courses", [.asc "course_code"], true⟩,
  ⟨"courses", [.asc "teacher_id"], false⟩,
  ⟨"courses", [.asc "department"], false⟩,
  ⟨"courses", [.asc "semester", .asc "year"], false⟩,
  ⟨"courses", [.asc "created_at"], false⟩,
  ⟨"courses", [.asc "updated_at"], false⟩,
  ⟨"courses", [.text "course_name", .text "description"], false⟩,
  ⟨"courses", [.asc "department", .asc "semester", .asc "year"], false⟩,
  ⟨"courses", [.asc "teacher_id", .asc "semester", .asc "year"], false⟩
]

def enrollments_indexes : List IndexSpec := [
  ⟨"enrollments", [.asc "student_id", .asc "course_id"], true⟩,
  ⟨"enrollments", [.asc "student_id"], false⟩,
  ⟨"enrollments", [.asc "course_id"], false⟩,
  ⟨"enrollments", [.asc "status"], false⟩,
  ⟨"enrollments", [.asc "enrollment_date"], false⟩,
  ⟨"enrollments", [.asc "drop_date"], false⟩,
  ⟨"enrollments", [.asc "student_id", .asc "status"], false⟩,
  ⟨"enrollments", [.asc "course_id", .asc "status"], false⟩
]

def assignments_indexes : List IndexSpec := [
  ⟨"assignments", [.asc "course_id"], false⟩,
  ⟨"assignments", [.asc "teacher_id"], false⟩,
  ⟨"assignments", [.asc "due_date"], false⟩,
  ⟨"assignments", [.asc "created_date"], false⟩,
  ⟨"assignments", [.asc "is_published"], false⟩,
  ⟨"assignments", [.text "title", .text "description"], false⟩,
  ⟨"assignments", [.asc "course_id", .asc "due_date"], false⟩,
  ⟨"assignments", [.asc "course_id", .asc "is_published"], false⟩
]

def quizzes_indexes : List IndexSpec := [
  ⟨"quizzes", [.asc "course_id"], false⟩,
  ⟨"quizzes", [.asc "teacher_id"], false⟩,
  ⟨"quizzes", [.asc "due_date"], false⟩,
  ⟨"quizzes", [.asc "start_date"], false⟩,
  ⟨"quizzes", [.asc "created_date"], false⟩,
  ⟨"quizzes", [.asc "is_published"], false⟩,
  ⟨"quizzes", [.text "title", .text "description"], false⟩,
  ⟨"quizzes", [.asc "course_id", .asc "due_date"], false⟩,
  ⟨"quizzes", [.asc "course_id", .asc "is_published"], false⟩
]

def assignment_submissions_indexes : List IndexSpec := [
  ⟨"assignment_submissions", [.asc "student_id", .asc "assignment_id"], true⟩,
  ⟨"assignment_submissions", [.asc "assignment_id"], false⟩,
  ⟨"assignment_submissions", [.asc "student_id"], false⟩,
  ⟨"assignment_submissions", [.asc "submission_date"], false⟩,
  ⟨"assignment_submissions", [.asc "status"], false⟩,
  ⟨"assignment_submissions", [.asc "graded_date"], false⟩,
  ⟨"assignment_submissions", [.asc "assignment_id", .asc "status"], false⟩
]

def quiz_submissions_indexes : List IndexSpec := [
  ⟨"quiz_submissions", [.asc "student_id", .asc "quiz_id"], true⟩,
  ⟨"quiz_submissions", [.asc "quiz_id"], false⟩,
  ⟨"quiz_submissions", [.asc "student_id"], false⟩,
  ⟨"quiz_submissions", [.asc "submission_date"], false⟩,
  ⟨"quiz_submissions", [.asc "graded_date"], false⟩,
  ⟨"quiz_submissions", [.asc "quiz_id", .asc "submission_date"], false⟩
]

def attendance_indexes : List IndexSpec := [
  ⟨"attendance", [.asc "course_id", .asc "date"], true⟩,
  ⟨"attendance", [.asc "course_id"], false⟩,
  ⟨"attendance", [.asc "date"], false⟩,
  ⟨"attendance", [.asc "recorded_by"], false⟩,
  ⟨"attendance", [.asc "recorded_at"], false⟩
]

def grades_indexes : List IndexSpec := [
  ⟨"grades", [.asc "student_id", .asc "course_id"], true⟩,
  ⟨"grades", [.asc "student_id"], false⟩,
  ⟨"grades", [.asc "course_id"], false⟩,
  ⟨"grades", [.asc "final_percentage"], false⟩,
  ⟨"grades", [.asc "calculated_at"], false⟩
]

def calendar_events_indexes : List IndexSpec := [
  ⟨"calendar_events", [.asc "course_id"], false⟩,
  ⟨"calendar_events", [.asc "created_by"], false⟩,
  ⟨"calendar_events", [.asc "start_datetime"], false⟩,
  ⟨"calendar_events", [.asc "end_datetime"], false⟩,
  ⟨"calendar_events", [.asc "event_type"], false⟩,
  ⟨"calendar_events", [.asc "created_at"], false⟩,
  ⟨"calendar_events", [.asc "course_id", .asc "start_datetime"], false⟩,
  ⟨"calendar_events", [.asc "created_by", .asc "start_datetime"], false⟩
]

def notifications_indexes : List IndexSpec := [
  ⟨"notifications", [.asc "recipient_id"], false⟩,
  ⟨"notifications", [.asc "is_read"], false⟩,
  ⟨"notifications", [.asc "created_at"], false⟩,
  ⟨"notifications", [.asc "notification_type"], false⟩,
  ⟨"notifications", [.asc "related_course_id"], false⟩,
  ⟨"notifications", [.asc "recipient_id", .asc "is_read"], false⟩,
  ⟨"notifications", [.asc "recipient_id", .desc "created_at"], false⟩
]

def query_performance_indexes : List IndexSpec := [
  ⟨"query_performance", [.asc "operation"], false⟩,
  ⟨"query_performance", [.asc "timestamp"], false⟩,
  ⟨"query_performance", [.asc "duration"], false⟩,
  ⟨"query_performance", [.asc "operation", .desc "timestamp"], false⟩
]

def create_indexes_specs : List IndexSpec :=
  users_indexes ++ courses_indexes ++ enrollments_indexes ++ assignments_indexes ++ quizzes_indexes ++ assignment_submissions_indexes ++ quiz_submissions_indexes ++ attendance_indexes ++ grades_indexes ++ calendar_events_indexes ++ notifications_indexes ++ query_performance_indexes

/- ========== Transaction orchestrator (safe_execute_transaction) ========== -/

/-- Store-reported error classes; the orchestrator never inspects the
class, which is exactly what claim C2 is about. -/
inductive StoreErr where
  | transient (code : Nat)  -- retryable class (write conflict, network blip)
  | fatal (code : Nat)      -- non-transient class (logical/application error)
deriving DecidableEq

/-- `TransactionException` raised by the `transaction_session` context
manager, wrapping the inner failure. -/
inductive TxError where
  | txExn (inner : StoreErr)
deriving DecidableEq

/-- Run the ordered operation list inside one session; the first raising
operation aborts the attempt.  Each operation sees the attempt index so
that transient conditions may differ between attempts. -/
def run_ops (ops : List (Nat → Except StoreErr Nat)) (attempt : Nat) :
    Except StoreErr (List Nat) :=
  match ops with
  | [] => .ok []
  | op :: rest =>
      match op attempt with
      | .error e => .error e
      | .ok r =>
          match run_ops rest attempt with
          | .error e => .error e
          | .ok rs => .ok (r :: rs)

/-- `transaction_session`: exceptions escaping the transaction body are
re-raised as `TransactionException`. -/
def transaction_session_run (ops : List (Nat → Except StoreErr Nat)) (attempt : Nat) :
    Except TxError (List Nat) :=
  match run_ops ops attempt with
  | .ok rs => .ok rs
  | .error e => .error (.txExn e)

/-- Result dict of `safe_execute_transaction`. -/
inductive TxOutcome where
  | success (results : List Nat) (attempt : Nat)   -- "success": True
  | failure (error : TxError) (attempts : Nat)      -- "success": False, str(e)
  | maxRetriesExceeded                               -- trailing return
deriving DecidableEq

/-- The retry loop of `safe_execute_transaction`: the except arm catches
every exception alike, sleeping `0.1 * (attempt + 1)` before each retry
(recorded in tenths).  `fuel` is the number of loop iterations left. -/
def safeGo (ops : List (Nat → Except StoreErr Nat)) (max_retries : Nat) :
    Nat → Nat → List Nat → TxOutcome × List Nat
  | _, 0, sleeps => (.maxRetriesExceeded, sleeps)
  | attempt, fuel + 1, sleeps =>
      match transaction_session_run ops attempt with
      | .ok results => (.success results (attempt + 1), sleeps)
      | .error e =>
          if attempt = max_retries - 1 then (.failure e max_retries, sleeps)
          else safeGo ops max_retries (attempt + 1) fuel (sleeps ++ [attempt + 1])

/-- `DatabaseUtils.safe_execute_transaction`. -/
def safe_execute_transaction (ops : List (Nat → Except StoreErr Nat))
    (max_retries : Nat) : TxOutcome × List Nat :=
  safeGo ops max_retries 0 max_retries []

/-- When every attempt raises, the loop always runs to the retry bound —
regardless of the error class — sleeping after each non-final attempt. -/
theorem safeGo_all_fail (ops : List (Nat → Except StoreErr Nat))
    (max_retries : Nat) (errf : Nat → TxError) :
    ∀ fuel attempt sleeps,
      (∀ a, transaction_session_run ops a = .error (errf a)) →
      1 ≤ fuel → attempt + fuel = max_retries →
      safeGo ops max_retries attempt fuel sleeps
        = (.failure (errf (max_retries - 1)) max_retries,
           sleeps ++ (List.range (fuel - 1)).map (fun j => attempt + 1 + j)) := by
  intro fuel
  induction fuel with
  | zero => intro attempt sleeps _ h1 _; omega
  | succ f ih =>
      intro attempt sleeps herr _ htot
      match f, htot with
      | 0, htot =>
          have hlast : attempt = max_retries - 1 := by omega
          simp [safeGo, hlast, herr]
      | f2 + 1, htot =>
          have hnotlast : ¬ (attempt = max_retries - 1) := by omega
          rw [safeGo]
          simp only [herr attempt, hnotlast, if_false]
          rw [ih (attempt + 1) (sleeps ++ [attempt + 1]) herr (by omega) (by omega)]
          have hfg : (fun j => attempt + 1 + 1 + j) = ((fun j => attempt + 1 + j) ∘ Nat.succ) := by
            funext j
            simp only [Function.comp_apply]
            omega
          simp only [Prod.mk.injEq, Nat.add_sub_cancel, List.range_succ_eq_map,
            List.map_cons, List.map_map, List.append_assoc, List.singleton_append,
            hfg, Nat.add_zero]

/- ============ Cascade delete (cascade_delete_user) ============ -/

/-- User record: only the fields the cascade filters on. -/
structure UserDoc where
  id : Nat
  role : String
deriving DecidableEq

/-- Course record: id, code, optional teacher reference, and the
enrolled-students back-reference list. -/
structure CourseDoc where
  id : Nat
  course_code : String
  teacher_id : Option Nat
  enrolled_students : List Nat
deriving DecidableEq

structure EnrollmentDoc where
  student_id : Nat
  course_id : Nat
deriving DecidableEq

structure ASubDoc where
  student_id : Nat
  assignment_id : Nat
deriving DecidableEq

structure QSubDoc where
  student_id : Nat
  quiz_id : Nat
deriving DecidableEq

structure GradeDoc where
  student_id : Nat
  course_id : Nat
deriving DecidableEq

/-- Notification: optional fields, so a document without the field never
matches the `$or` filter. -/
structure NotificationDoc where
  recipient_id : Option Nat
  created_by : Option Nat
deriving DecidableEq

structure CalEventDoc where
  created_by : Option Nat
  attendees : List Nat
deriving DecidableEq

/-- The collections touched by `cascade_delete_user`. -/
structure DBState where
  users : List UserDoc
  courses : List CourseDoc
  enrollments : List EnrollmentDoc
  assignment_submissions : List ASubDoc
  quiz_submissions : List QSubDoc
  grades : List GradeDoc
  notifications : List NotificationDoc
  calendar_events : List CalEventDoc
deriving DecidableEq

/-- The accumulated `results` dict; keys a branch never writes keep their
zero default. -/
structure CascadeUserResults where
  enrollments : Nat := 0
  assignment_submissions : Nat := 0
  quiz_submissions : Nat := 0
  grades : Nat := 0
  courses_unassigned : Nat := 0
  assigned_courses : List String := []
  notifications : Nat := 0
  calendar_events : Nat := 0
  user_deleted : Bool := false
deriving DecidableEq

/-- `users.delete_one({"_id": uid})`. -/
def users_delete_one (users : List UserDoc) (uid : Nat) : List UserDoc × Nat :=
  match users with
  | [] => ([], 0)
  | u :: rest =>
      if u.id = uid then (rest, 1)
      else
        let r := users_delete_one rest uid
        (u :: r.fst, r.snd)

/-- `DatabaseUtils.cascade_delete_user` (the `_delete_user_data` body run
inside one transaction; session threading is implicit in the state
passing).  Raising `CascadeDeleteException` is the error case. -/
def cascade_delete_user (st : DBState) (uid : Nat) :
    Except String (CascadeUserResults × DBState) :=
  match st.users.find? (fun u => u.id = uid) with
  | none => .error "User not found"
  | some user =>
      let (st1, r1) :=
        if user.role = "student" then
          let enr_removed := st.enrollments.filter (fun e => e.student_id = uid)
          let asub_removed := st.assignment_submissions.filter (fun s => s.student_id = uid)
          let qsub_removed := st.quiz_submissions.filter (fun s => s.student_id = uid)
          let grades_removed := st.grades.filter (fun g => g.student_id = uid)
          let st1 : DBState :=
            { st with
              enrollments := st.enrollments.filter (fun e => ¬ e.student_id = uid),
              assignment_submissions :=
                st.assignment_submissions.filter (fun s => ¬ s.student_id = uid),
              quiz_submissions := st.quiz_submissions.filter (fun s => ¬ s.student_id = uid),
              grades := st.grades.filter (fun g => ¬ g.student_id = uid),
              courses := st.courses.map (fun c =>
                { c with enrolled_students := c.enrolled_students.filter (fun s => ¬ s = uid) }) }
          (st1,
           { enrollments := enr_removed.length,
             assignment_submissions := asub_removed.length,
             quiz_submissions := qsub_removed.length,
             grades := grades_removed.length : CascadeUserResults })
        else if user.role = "teacher" then
          let assigned_courses := st.courses.filter (fun c => c.teacher_id = some uid)
          if assigned_courses.isEmpty then
            (st, { courses_unassigned := 0, assigned_courses := [] : CascadeUserResults })
          else
            let st1 : DBState :=
              { st with
                courses := st.courses.map (fun c =>
                  if c.teacher_id = some uid then { c with teacher_id := none } else c) }
            (st1,
             { courses_unassigned := assigned_courses.length,
               assigned_courses := assigned_courses.map (fun c => c.course_code) :
               CascadeUserResults })
        else (st, {})
      let notif_removed := st1.notifications.filter
        (fun n => n.recipient_id = some uid ∨ n.created_by = some uid)
      let st2 : DBState :=
        { st1 with
          notifications := st1.notifications.filter
            (fun n => ¬ (n.recipient_id = some uid ∨ n.created_by = some uid)) }
      let cal_removed := st2.calendar_events.filter
        (fun e => e.created_by = some uid ∨ uid ∈ e.attendees)
      let st3 : DBState :=
        { st2 with
          calendar_events := st2.calendar_events.filter
            (fun e => ¬ (e.created_by = some uid ∨ uid ∈ e.attendees)) }
      let del := users_delete_one st3.users uid
      let st4 : DBState := { st3 with users := del.fst }
      .ok ({ r1 with
             notifications := notif_removed.length,
             calendar_events := cal_removed.length,
             user_deleted := decide (0 < del.snd) }, st4)

/- =============== Pagination (paginate_query) =============== -/

/-- The `pagination` metadata dict. -/
structure PageMeta where
  page : Nat
  per_page : Nat
  total_count : Nat
  total_pages : Nat
  has_next : Bool
  has_prev : Bool
  next_page : Option Nat
  prev_page : Option Nat
deriving DecidableEq

/-- Return value of `paginate_query`. -/
structure PageResult (α : Type) where
  data : List α
  pagination : PageMeta
deriving DecidableEq

/-- `DatabaseUtils.paginate_query`, applied to the filtered and sorted
document sequence the query denotes (`docs`): count, compute the
metadata, then slice with skip/limit. -/
def paginate_query (docs : List α) (page per_page : Nat) : PageResult α :=
  let skip := (page - 1) * per_page
  let total_count := docs.length
  let total_pages := (total_count + per_page - 1) / per_page
  let has_next := page < total_pages
  let has_prev := page > 1
  { data := (docs.drop skip).take per_page,
    pagination :=
      { page := page,
        per_page := per_page,
        total_count := total_count,
        total_pages := total_pages,
        has_next := decide has_next,
        has_prev := decide has_prev,
        next_page := if has_next then some (page + 1) else none,
        prev_page := if has_prev then some (page - 1) else none } }

/- ======= Performance monitoring (monitor_query_performance) ======= -/

/-- The wrapper produced by the `monitor_query_performance` decorator.
`func` is the wrapped call (value or exception); `record` is
`performance_monitor.record_query`, called with the success marker
(`operation` vs `operation_error`), itself a Python call that may raise.
Neither call to `record` is guarded by a try/except. -/
def monitor_wrapper (func : Except Nat α) (record : Bool → Except Nat Unit) :
    Except Nat α :=
  match func with
  | .ok result =>
      match record true with
      | .ok _ => .ok result
      | .error re => .error re
  | .error e =>
      match record false with
      | .ok _ => .error e      -- raise e
      | .error re => .error re -- the recording exception replaces e

/-- Document written by `log_slow_query`. -/
structure SlowQueryDoc where
  collection : String
  operation : String
  duration : ℚ
  severity : String
deriving DecidableEq

/-- `DatabaseUtils.log_slow_query`: only queries above one second are
persisted, and a failing insert is caught and merely logged. -/
def log_slow_query (c op : String) (duration : ℚ)
    (insert : SlowQueryDoc → Except Nat Unit) : Except Nat Unit :=
  if 1 < duration then
    let doc : SlowQueryDoc :=
      ⟨c, op, duration, if duration < 5 then "warning" else "critical"⟩
    match insert doc with
    | .ok _ => .ok ()
    | .error _ => .ok ()   -- logging.error, exception swallowed
  else .ok ()

/- ========================= Claim theorems ========================= -/

/-- Claim C1 (code bug): `create_indexes` declares no index at all on the
`locks` collection, so no uniqueness constraint on `lock_key` exists and
the DuplicateKeyError arm of `pessimistic_lock_operation` is dead code.
Evaluated at the failing input: with an empty lock store, two concurrent
acquisitions of the same `lock_key` (fresh `_id`s 1 and 2, both within
the 30 second timeout) both succeed, leaving two live lock rows for the
key, so both callers hold the lock at once. -/
theorem no_locks_index_allows_double_acquisition :
    (create_indexes_specs.all (fun s => ¬ s.collection = "locks")) = true
    ∧ lock_acquire [] "course:42" 1 0 30 10
        = some [⟨1, "course:42", 0, 30, 10⟩]
    ∧ lock_acquire [⟨1, "course:42", 0, 30, 10⟩] "course:42" 2 0 30 11
        = some [⟨1, "course:42", 0, 30, 10⟩, ⟨2, "course:42", 0, 30, 11⟩]
    ∧ (([⟨1, "course:42", 0, 30, 10⟩, ⟨2, "course:42", 0, 30, 11⟩] : List LockRow).filter
        (fun r => r.lock_key = "course:42" ∧ ¬ r.expires_at < 0)).length = 2 := by
  refine ⟨?_, by decide, by decide, by decide⟩
  decide

/-- Claim C2, counterexample: a non-transient (`fatal`) failure does not
abort immediately — `safe_execute_transaction` catches every exception
alike, so with `max_retries = 3` it still performs three attempts and two
backoff sleeps before reporting the failure. -/
theorem safe_execute_fatal_retries_counterexample :
    safe_execute_transaction [fun _ => .error (.fatal 7)] 3
      = (.failure (.txExn (.fatal 7)) 3, [1, 2])
    ∧ (safe_execute_transaction [fun _ => .error (.fatal 7)] 3).snd ≠ [] := by
  refine ⟨by decide, by decide⟩

/-- Claim C2 as amended: `safe_execute_transaction` retries the whole
operation list up to `maxRetries` with incremental backoff on every
failure, transient or not (the error class is never inspected), returning
the success dict on the first clean attempt and the failure dict with the
last error after the final attempt. -/
theorem safe_execute_transaction_retry_behavior :
    (∀ (ops : List (Nat → Except StoreErr Nat)) (max_retries : Nat)
        (errf : Nat → TxError),
        (∀ a, transaction_session_run ops a = .error (errf a)) →
        1 ≤ max_retries →
        safe_execute_transaction ops max_retries
          = (.failure (errf (max_retries - 1)) max_retries,
             (List.range (max_retries - 1)).map (fun j => 1 + j)))
    ∧ (∀ (ops : List (Nat → Except StoreErr Nat)) (rs : List Nat) (max_retries : Nat),
        transaction_session_run ops 0 = .ok rs →
        1 ≤ max_retries →
        safe_execute_transaction ops max_retries = (.success rs 1, [])) := by
  constructor
  · intro ops max_retries errf herr hmr
    have h := safeGo_all_fail ops max_retries errf max_retries 0 [] herr hmr (by omega)
    simpa [safe_execute_transaction, Nat.zero_add] using h
  · intro ops rs max_retries hok hmr
    obtain ⟨m, rfl⟩ : ∃ m, max_retries = m + 1 := ⟨max_retries - 1, by omega⟩
    simp [safe_execute_transaction, safeGo, hok]

/-- Closed witness for the amended C2 theorem at concrete inputs. -/
theorem safe_execute_transaction_retry_behavior_witness :
    safe_execute_transaction [fun _ => .error (.transient 3)] 2
      = (.failure (.txExn (.transient 3)) 2, [1])
    ∧ safe_execute_transaction [fun _ => .ok 5] 2 = (.success [5] 1, []) := by
  constructor
  · exact safe_execute_transaction_retry_behavior.1
      [fun _ => .error (.transient 3)] 2 (fun _ => .txExn (.transient 3))
      (fun a => rfl) (by decide)
  · exact safe_execute_transaction_retry_behavior.2 [fun _ => .ok 5] [5] 2 rfl (by decide)

/-- Claim C3: the version-filtered update of `optimistic_lock_update`
modifies zero documents (leaving the collection untouched) whenever no
document carries the version read at the start of the attempt; a matching
update rewrites exactly the first matching document, setting `version`
to the read version plus one and `updated_at` to now; and with the target
present and no interference the whole call applies exactly one update and
returns the bumped document. -/
theorem optimistic_cas_guard :
    (∀ (coll : VColl) (i expected : Nat) (u : List (String × Nat)) (now : Nat),
        (∀ d, (i, d) ∈ coll → d.version ≠ expected) →
        update_one_cas coll i expected u (expected + 1) now = (coll, 0))
    ∧ (∀ (pre post : VColl) (i : Nat) (d : VDoc) (u : List (String × Nat)) (now : Nat),
        (∀ p ∈ pre, ¬ (p.fst = i ∧ p.snd.version = d.version)) →
        update_one_cas (pre ++ (i, d) :: post) i d.version u (d.version + 1) now
          = (pre ++ (i, applySet d u (d.version + 1) now) :: post, 1)
        ∧ (applySet d u (d.version + 1) now).version = d.version + 1
        ∧ (applySet d u (d.version + 1) now).updatedAt = now)
    ∧ (∀ (pre post : VColl) (i : Nat) (d : VDoc) (u : List (String × Nat))
        (now max_retries : Nat),
        (∀ p ∈ pre, p.fst ≠ i) → 1 ≤ max_retries →
        optimistic_lock_update (fun _ c => c) (pre ++ (i, d) :: post) i u now max_retries
          = ⟨.ok (some (applySet d u (d.version + 1) now)),
             pre ++ (i, applySet d u (d.version + 1) now) :: post, 1, []⟩) := by
  refine ⟨?_, ?_, ?_⟩
  · intro coll i expected u now h
    exact update_one_cas_miss coll i expected u (expected + 1) now h
  · intro pre post i d u now hpre
    exact ⟨update_one_cas_hit pre post i d u (d.version + 1) now hpre, rfl, rfl⟩
  · intro pre post i d u now max_retries hpre hmr
    exact oluGo_success_first i u now pre post d max_retries hpre hmr

/-- Closed witness for C3 at concrete inputs: a version mismatch is a
no-op, and a clean call bumps version 4 to 5. -/
theorem optimistic_cas_guard_witness :
    update_one_cas [(1, ⟨4, 0, []⟩)] 1 9 [] 10 0 = ([(1, ⟨4, 0, []⟩)], 0)
    ∧ optimistic_lock_update (fun _ c => c) [(1, ⟨4, 0, []⟩)] 1 [("credits", 3)] 99 3
        = ⟨.ok (some ⟨5, 99, [("credits", 3)]⟩),
           [(1, ⟨5, 99, [("credits", 3)]⟩)], 1, []⟩ := by
  constructor
  · refine optimistic_cas_guard.1 [(1, ⟨4, 0, []⟩)] 1 9 [] 0 ?_
    rintro d hd
    simp only [List.mem_singleton, Prod.mk.injEq] at hd
    rw [hd.2]
    decide
  · exact optimistic_cas_guard.2.2 [] [] 1 ⟨4, 0, []⟩ [("credits", 3)] 99 3
      (by intro p hp; cases hp) (by decide)

/-- Claim C4, counterexample: with the target document absent and
`max_retries = 3`, the call does not fail immediately — the not-found
error is caught by the blanket except handler, so the loop performs all
three attempts and sleeps twice before re-raising it. -/
theorem optimistic_absent_retries_counterexample :
    optimistic_lock_update (fun _ c => c) [] 1 [] 0 3
      = ⟨.exn .notFound, [], 3, [1, 2]⟩
    ∧ (optimistic_lock_update (fun _ c => c) [] 1 [] 0 3).attempts ≠ 1
    ∧ (optimistic_lock_update (fun _ c => c) [] 1 [] 0 3).sleeps ≠ [] := by
  refine ⟨by decide, by decide, by decide⟩

/-- Claim C4 as amended: when the target document is absent at every
read, `optimistic_lock_update` raises the not-found `ValueError` only
after exhausting all `max_retries` attempts, sleeping the incremental
backoff after each non-final attempt; the collection is untouched. -/
theorem optimistic_absent_fails_after_retries
    (interf : Nat → VColl → VColl) (coll : VColl) (i : Nat)
    (u : List (String × Nat)) (now max_retries : Nat)
    (habs : find_one coll i = none) (hmr : 1 ≤ max_retries) :
    optimistic_lock_update interf coll i u now max_retries
      = ⟨.exn .notFound, coll, max_retries,
         (List.range (max_retries - 1)).map (fun j => 1 + j)⟩ := by
  have h := oluGo_absent interf i u now max_retries max_retries 0 coll [] habs hmr (by omega)
  simpa [optimistic_lock_update, Nat.zero_add] using h

/-- Closed witness for the amended C4 theorem. -/
theorem optimistic_absent_fails_after_retries_witness :
    optimistic_lock_update (fun _ c => c) [(2, ⟨0, 0, []⟩)] 7 [] 5 2
      = ⟨.exn .notFound, [(2, ⟨0, 0, []⟩)], 2, [1]⟩ := by
  exact optimistic_absent_fails_after_retries (fun _ c => c) [(2, ⟨0, 0, []⟩)] 7 [] 5 2
    (by decide) (by decide)

/-- Claim C6: with a fresh `lock_id` (no pre-existing row carries it),
every exit path of `pessimistic_lock_operation` — normal return and body
exception alike — leaves no row with that `lock_id` in the store; and if
every pre-existing row for the `lock_key` had already expired, no row for
that key at all survives the call. -/
theorem pessimistic_lock_release_all_paths (locks : List LockRow)
    (lock_key : String) (lock_id now timeout thread_id : Nat)
    (body : Except Nat Nat)
    (hfresh : ∀ r ∈ locks, r.id ≠ lock_id) :
    (∀ r ∈ (pessimistic_lock_operation locks lock_key lock_id now timeout
        thread_id body).snd, r.id ≠ lock_id)
    ∧ ((∀ r ∈ locks, r.lock_key = lock_key → r.expires_at < now) →
        ∀ r ∈ (pessimistic_lock_operation locks lock_key lock_id now timeout
          thread_id body).snd, r.lock_key ≠ lock_key) := by
  set purged := locks_purge_expired locks lock_key now with hpurged
  have hsub : ∀ r ∈ purged, r ∈ locks := by
    intro r hr
    exact (List.mem_filter.mp (hpurged ▸ hr)).1
  have hpf : ∀ r ∈ purged, r.id ≠ lock_id := fun r hr => hfresh r (hsub r hr)
  have hnone : ¬ (purged.any (fun r => r.id = lock_id)) = true := by
    simp only [List.any_eq_true, decide_eq_true_eq, not_exists]
    intro r
    rintro ⟨hr, hc⟩
    exact hpf r hr hc
  have hacq : lock_acquire locks lock_key lock_id now timeout thread_id
      = some (purged ++ [⟨lock_id, lock_key, now, now + timeout, thread_id⟩]) := by
    simp [lock_acquire, locks_insert_one, ← hpurged, hnone]
  have hdel : locks_delete_one
      (purged ++ [⟨lock_id, lock_key, now, now + timeout, thread_id⟩]) lock_id
      = purged :=
    locks_delete_one_append purged _ hpf
  have hsnd : (pessimistic_lock_operation locks lock_key lock_id now timeout
      thread_id body).snd = purged := by
    cases body <;> simp [pessimistic_lock_operation, hacq, hdel]
  rw [hsnd]
  refine ⟨hpf, ?_⟩
  intro hexp r hr hk
  have hkeep := (List.mem_filter.mp (hpurged ▸ hr)).2
  have hd : ¬ r.lock_key = lock_key ∨ now ≤ r.expires_at := by simpa using hkeep
  rcases hd with h1 | h2
  · exact h1 hk
  · exact absurd (hexp r (hsub r hr) hk) (by omega)

/-- Closed witness for C6: one expired foreign row for the key, one live
row for a different key, body raising exception 13. -/
theorem pessimistic_lock_release_all_paths_witness :
    (∀ r ∈ (pessimistic_lock_operation
        [⟨5, "course:42", 0, 3, 20⟩, ⟨6, "room:1", 0, 100, 21⟩]
        "course:42" 9 10 30 22 (.error 13 : Except Nat Nat)).snd, r.id ≠ 9)
    ∧ (∀ r ∈ (pessimistic_lock_operation
        [⟨5, "course:42", 0, 3, 20⟩, ⟨6, "room:1", 0, 100, 21⟩]
        "course:42" 9 10 30 22 (.error 13 : Except Nat Nat)).snd,
        r.lock_key ≠ "course:42") := by
  have h := pessimistic_lock_release_all_paths
    [⟨5, "course:42", 0, 3, 20⟩, ⟨6, "room:1", 0, 100, 21⟩]
    "course:42" 9 10 30 22 (.error 13)
    (by intro r hr; fin_cases hr <;> decide)
  exact ⟨h.1, h.2 (by intro r hr; fin_cases hr <;> decide)⟩

/-- Claim C5: cascade-deleting a teacher never deletes their courses —
every course survives with id and code intact, only a matching
`teacher_id` reference is cleared — and the result reports exactly the
codes of the courses that were assigned to the teacher. -/
theorem cascade_delete_teacher_preserves_courses
    (st : DBState) (uid : Nat) (u : UserDoc)
    (hfind : st.users.find? (fun x => x.id = uid) = some u)
    (hrole : u.role = "teacher")
    (hne : st.courses.filter (fun c => c.teacher_id = some uid) ≠ []) :
    ∃ r st2, cascade_delete_user st uid = .ok (r, st2)
      ∧ st2.courses = st.courses.map (fun c =>
          if c.teacher_id = some uid then { c with teacher_id := none } else c)
      ∧ r.assigned_courses = (st.courses.filter
          (fun c => c.teacher_id = some uid)).map (fun c => c.course_code)
      ∧ st2.courses.length = st.courses.length
      ∧ ∀ c ∈ st.courses, ∃ c2 ∈ st2.courses,
          c2.id = c.id ∧ c2.course_code = c.course_code := by
  have hstudent : ¬ (u.role = "student") := by rw [hrole]; decide
  have hempty : ¬ (st.courses.filter (fun c => c.teacher_id = some uid)).isEmpty = true := by
    simpa [List.isEmpty_iff] using hne
  simp only [cascade_delete_user, hfind, hstudent, hrole, hempty, if_false, if_true,
    reduceIte]
  refine ⟨_, _, rfl, ?_, ?_, ?_, ?_⟩
  · rfl
  · rfl
  · simp
  · intro c hc
    refine ⟨if c.teacher_id = some uid then { c with teacher_id := none } else c,
      List.mem_map_of_mem _ hc, ?_, ?_⟩ <;>
      by_cases h : c.teacher_id = some uid <;> simp [h]

def cascadeWitnessState : DBState :=
  { users := [⟨1, "teacher"⟩],
    courses := [⟨10, "CS101", some 1, []⟩, ⟨11, "MA200", some 2, []⟩],
    enrollments := [],
    assignment_submissions := [],
    quiz_submissions := [],
    grades := [],
    notifications := [],
    calendar_events := [] }

/-- Closed witness for C5: teacher 1 is assigned CS101; MA200 belongs to
another teacher. -/
theorem cascade_delete_teacher_preserves_courses_witness :
    cascadeWitnessState.users.find? (fun x => x.id = 1) = some ⟨1, "teacher"⟩
    ∧ cascadeWitnessState.courses.filter (fun c => c.teacher_id = some 1) ≠ []
    ∧ ∃ r st2, cascade_delete_user cascadeWitnessState 1 = .ok (r, st2)
      ∧ st2.courses = cascadeWitnessState.courses.map (fun c =>
          if c.teacher_id = some 1 then { c with teacher_id := none } else c)
      ∧ r.assigned_courses = (cascadeWitnessState.courses.filter
          (fun c => c.teacher_id = some 1)).map (fun c => c.course_code)
      ∧ st2.courses.length = cascadeWitnessState.courses.length
      ∧ ∀ c ∈ cascadeWitnessState.courses, ∃ c2 ∈ st2.courses,
          c2.id = c.id ∧ c2.course_code = c.course_code :=
  ⟨by decide, by decide,
   cascade_delete_teacher_preserves_courses cascadeWitnessState 1 ⟨1, "teacher"⟩
     (by decide) rfl (by decide)⟩

/- Further cache lemmas for the invalidation contract -/

theorem mem_keys_dictInsert (l : List (CKey × CEntry α)) (k x : CKey) (v : CEntry α)
    (hx : x ∈ (dictInsert k v l).map (·.fst)) :
    x = k ∨ x ∈ l.map (·.fst) := by
  induction l with
  | nil => simpa [dictInsert] using hx
  | cons h t ih =>
      obtain ⟨k2, v2⟩ := h
      by_cases hk : k2 = k
      · subst hk
        simpa [dictInsert] using hx
      · simp only [dictInsert, if_neg hk, List.map_cons, List.mem_cons] at hx
        rcases hx with hx | hx
        · right; simp [hx]
        · rcases ih hx with h1 | h2
          · exact Or.inl h1
          · right; simp [h2]

theorem dictInsert_keys_nodup (l : List (CKey × CEntry α)) (k : CKey) (v : CEntry α)
    (hnd : (l.map (·.fst)).Nodup) :
    ((dictInsert k v l).map (·.fst)).Nodup := by
  induction l with
  | nil => simp [dictInsert]
  | cons h t ih =>
      obtain ⟨k2, v2⟩ := h
      simp only [List.map_cons, List.nodup_cons] at hnd
      by_cases hk : k2 = k
      · subst hk
        have h1 : dictInsert k2 v ((k2, v2) :: t) = (k2, v) :: t := by simp [dictInsert]
        rw [h1]
        simp only [List.map_cons, List.nodup_cons]
        exact ⟨hnd.1, hnd.2⟩
      · simp only [dictInsert, if_neg hk, List.map_cons, List.nodup_cons]
        refine ⟨?_, ih hnd.2⟩
        intro hmem
        rcases mem_keys_dictInsert t k k2 v hmem with h1 | h2
        · exact hk h1
        · exact hnd.1 h2

theorem dictErase_sublist (l : List (CKey × CEntry α)) (k : CKey) :
    List.Sublist (dictErase k l) l := by
  induction l with
  | nil => simp [dictErase]
  | cons h t ih =>
      obtain ⟨k2, v2⟩ := h
      by_cases hk : k2 = k
      · simp [dictErase, hk, List.sublist_cons_self]
      · simpa [dictErase, hk] using ih.cons₂ (k2, v2)

theorem dictErase_eq_filter (l : List (CKey × CEntry α)) (k : CKey)
    (hnd : (l.map (·.fst)).Nodup) :
    dictErase k l = l.filter (fun e => ¬ e.fst = k) := by
  induction l with
  | nil => simp [dictErase]
  | cons h t ih =>
      obtain ⟨k2, v2⟩ := h
      simp only [List.map_cons, List.nodup_cons] at hnd
      by_cases hk : k2 = k
      · subst hk
        have h1 : dictErase k2 ((k2, v2) :: t) = t := by simp [dictErase]
        have h2 : List.filter (fun e : CKey × CEntry α => ¬ e.fst = k2) ((k2, v2) :: t)
            = List.filter (fun e : CKey × CEntry α => ¬ e.fst = k2) t := by
          simp [List.filter_cons]
        rw [h1, h2]
        have hall : ∀ e ∈ t, ((fun e : CKey × CEntry α => decide (¬ e.fst = k2)) e) = true := by
          intro e he
          simp only [decide_eq_true_eq]
          intro hc
          exact hnd.1 (hc ▸ List.mem_map_of_mem (fun x => x.fst) he)
        exact (List.filter_eq_self.mpr hall).symm
      · simp only [dictErase, if_neg hk, List.filter_cons]
        have hcond : (decide (¬ (k2, v2).fst = k)) = true := by
          simpa using hk
        simp [hcond, ih hnd.2]

theorem foldl_dictErase_eq_filter (ks : List CKey) :
    ∀ (l : List (CKey × CEntry α)), (l.map (·.fst)).Nodup →
    ks.foldl (fun acc k2 => dictErase k2 acc) l
      = l.filter (fun e => ¬ e.fst ∈ ks) := by
  induction ks with
  | nil =>
      intro l _
      simp
  | cons k ks ih =>
      intro l hnd
      have hnd2 : ((dictErase k l).map (·.fst)).Nodup :=
        ((dictErase_sublist l k).map (·.fst)).nodup hnd
      simp only [List.foldl_cons]
      rw [ih (dictErase k l) hnd2, dictErase_eq_filter l k hnd, List.filter_filter]
      apply List.filter_congr
      intro e _
      by_cases h1 : e.fst = k <;> by_cases h2 : e.fst ∈ ks <;> simp [h1, h2]

/-- Claim C7: a `get` within the TTL of a `set` returns the stored value;
a `get` at or after TTL expiry misses and deletes the entry; and
`invalidate_pattern` removes exactly the entries whose key contains the
pattern as a substring, leaving every other entry intact.  The no-duplicate
hypothesis on the stored keys is the Python dict invariant, maintained by
`set`. -/
theorem query_cache_contract :
    (∀ (c : QueryCache Nat) (key : CKey) (v : Option Nat) (tset now : Nat),
        now - tset < c.ttl →
        (QueryCache.get (c.set key v tset) now key).fst = v)
    ∧ (∀ (c : QueryCache Nat) (key : CKey) (v : Option Nat) (tset now : Nat),
        (c.cache.map (·.fst)).Nodup →
        c.ttl ≤ now - tset →
        (QueryCache.get (c.set key v tset) now key).fst = none
        ∧ dictFind ((QueryCache.get (c.set key v tset) now key).snd.cache) key = none)
    ∧ (∀ (c : QueryCache Nat) (pat : CKey),
        (c.cache.map (·.fst)).Nodup →
        (c.invalidate_pattern pat).cache
            = c.cache.filter (fun e => ! strIn pat e.fst)
        ∧ ∀ k : CKey, k ∈ (c.invalidate_pattern pat).cache.map (·.fst)
            ↔ (k ∈ c.cache.map (·.fst) ∧ ¬ ∃ s t, k = s ++ pat ++ t)) := by
  refine ⟨?_, ?_, ?_⟩
  · intro c key v tset now hfresh
    simp [QueryCache.get, QueryCache.set, dictFind_dictInsert_self, hfresh]
  · intro c key v tset now hnd hstale
    have hnd2 : (((c.set key v tset).cache).map (·.fst)).Nodup :=
      dictInsert_keys_nodup c.cache key (v, tset) hnd
    have hnl : ¬ (now - tset < c.ttl) := by omega
    constructor
    · simp [QueryCache.get, QueryCache.set, dictFind_dictInsert_self, hnl]
    · simp only [QueryCache.get, QueryCache.set, dictFind_dictInsert_self, hnl, if_false]
      simpa [QueryCache.set] using
        dictFind_dictErase_self ((c.set key v tset).cache) key hnd2
  · intro c pat hnd
    have hcf : (c.invalidate_pattern pat).cache
        = c.cache.filter (fun e => ! strIn pat e.fst) := by
      show ((c.cache.map (·.fst)).filter (fun k => strIn pat k)).foldl
          (fun l k => dictErase k l) c.cache = _
      rw [foldl_dictErase_eq_filter _ c.cache hnd]
      apply List.filter_congr
      intro e he
      by_cases hs : strIn pat e.fst = true
      · have hmem : e.fst ∈ (c.cache.map (·.fst)).filter (fun k => strIn pat k) :=
          List.mem_filter.mpr ⟨List.mem_map_of_mem (fun x => x.fst) he, hs⟩
        simp [hmem, hs]
      · have hmem : e.fst ∉ (c.cache.map (·.fst)).filter (fun k => strIn pat k) := by
          intro hc
          exact hs (List.mem_filter.mp hc).2
        simp [hmem, hs]
    refine ⟨hcf, ?_⟩
    intro k
    rw [hcf]
    simp only [List.mem_map, List.mem_filter, Bool.not_eq_true']
    constructor
    · rintro ⟨e, ⟨he, hp⟩, rfl⟩
      refine ⟨⟨e, he, rfl⟩, ?_⟩
      rw [← strIn_iff]
      simp [hp]
    · rintro ⟨⟨e, he, rfl⟩, hns⟩
      rw [← strIn_iff] at hns
      exact ⟨e, ⟨he, by simpa using hns⟩, rfl⟩

def cacheWitness : QueryCache Nat :=
  ⟨[(['x'], (some 1, 0)), (['a', 'y'], (some 2, 0))], 300⟩

/-- Closed witness for C7: a fresh hit returns the stored 5; a stale
entry misses and is erased; invalidating pattern "a" keeps key "x". -/
theorem query_cache_contract_witness :
    (QueryCache.get ((⟨[], 300⟩ : QueryCache Nat).set ['k'] (some 5) 0) 10 ['k']).fst
        = some 5
    ∧ (QueryCache.get ((⟨[], 300⟩ : QueryCache Nat).set ['k'] (some 5) 0) 400 ['k']).fst
        = none
    ∧ dictFind ((QueryCache.get ((⟨[], 300⟩ : QueryCache Nat).set ['k'] (some 5) 0)
        400 ['k']).snd.cache) ['k'] = none
    ∧ (['x'] ∈ (cacheWitness.invalidate_pattern ['a']).cache.map (·.fst)
        ↔ (['x'] ∈ cacheWitness.cache.map (·.fst) ∧ ¬ ∃ s t, ['x'] = s ++ ['a'] ++ t)) := by
  have h2 := query_cache_contract.2.1 ⟨[], 300⟩ ['k'] (some 5) 0 400 (by decide) (by decide)
  exact ⟨query_cache_contract.1 ⟨[], 300⟩ ['k'] (some 5) 0 10 (by decide),
    h2.1, h2.2,
    (query_cache_contract.2.2 cacheWitness ['a'] (by decide)).2 ['x']⟩

/-- Claim C10: a stored None is indistinguishable from a miss — a `get`
within TTL of `set key None` returns None exactly as for an absent key,
and the `cached_query` wrapper therefore re-executes the wrapped function
whenever the stored result is None. -/
theorem cached_none_reexecutes
    (c : QueryCache Nat) (key : CKey) (tset now : Nat) (f : Unit → Option Nat)
    (hfresh : now - tset < c.ttl) :
    (QueryCache.get (c.set key none tset) now key).fst = none
    ∧ (∀ c2 : QueryCache Nat, dictFind c2.cache key = none →
        (QueryCache.get c2 now key).fst = none)
    ∧ (cached_query (c.set key none tset) now key f).fst = f () := by
  have hget : QueryCache.get (c.set key none tset) now key
      = (none, c.set key none tset) := by
    simp [QueryCache.get, QueryCache.set, dictFind_dictInsert_self, hfresh]
  refine ⟨by rw [hget], ?_, ?_⟩
  · intro c2 h2
    simp [QueryCache.get, h2]
  · simp [cached_query, hget]

/-- Closed witness for C10. -/
theorem cached_none_reexecutes_witness :
    (QueryCache.get ((⟨[], 300⟩ : QueryCache Nat).set ['k'] none 0) 10 ['k']).fst = none
    ∧ (∀ c2 : QueryCache Nat, dictFind c2.cache ['k'] = none →
        (QueryCache.get c2 10 ['k']).fst = none)
    ∧ (cached_query ((⟨[], 300⟩ : QueryCache Nat).set ['k'] none 0) 10 ['k']
        (fun _ => some 8)).fst = some 8 :=
  cached_none_reexecutes ⟨[], 300⟩ ['k'] 0 10 (fun _ => some 8) (by decide)

/-- Claim C8: `paginate_query` computes `total_pages` as the ceiling of
`total_count / per_page`, sets `has_next` exactly when `page <
total_pages`, and slices the data with skip `(page - 1) * per_page` and
limit `per_page`; in particular page 1 with 2 per page over 5 documents
yields exactly 2 items and 3 total pages. -/
theorem paginate_query_contract :
    (∀ (docs : List Nat) (page per_page : Nat),
        1 ≤ page → 1 ≤ per_page → per_page ≤ 100 →
        (paginate_query docs page per_page).pagination.total_pages
            = docs.length ⌈/⌉ per_page
        ∧ ((paginate_query docs page per_page).pagination.has_next = true
            ↔ page < (paginate_query docs page per_page).pagination.total_pages)
        ∧ (paginate_query docs page per_page).data
            = (docs.drop ((page - 1) * per_page)).take per_page)
    ∧ (paginate_query [0, 1, 2, 3, 4] 1 2).data.length = 2
    ∧ (paginate_query [0, 1, 2, 3, 4] 1 2).pagination.total_pages = 3 := by
  refine ⟨?_, by decide, by decide⟩
  intro docs page per_page hp hpp hpp100
  refine ⟨(Nat.ceilDiv_eq_add_pred_div _ _).symm, ?_, rfl⟩
  simp [paginate_query]

/-- Closed witness for C8. -/
theorem paginate_query_contract_witness :
    (paginate_query [10, 20, 30] 2 2).pagination.total_pages = List.length [10, 20, 30] ⌈/⌉ 2
    ∧ ((paginate_query [10, 20, 30] 2 2).pagination.has_next = true
        ↔ 2 < (paginate_query [10, 20, 30] 2 2).pagination.total_pages)
    ∧ (paginate_query [10, 20, 30] 2 2).data = (([10, 20, 30].drop ((2 - 1) * 2)).take 2) :=
  paginate_query_contract.1 [10, 20, 30] 2 2 (by decide) (by decide) (by decide)

/-- Claim C9, counterexample: the decorator calls
`performance_monitor.record_query` outside any try/except, so a failure
in the recording step replaces the wrapped result — here a successful
call returning 5 surfaces the recording exception 7 instead. -/
theorem monitor_recording_failure_counterexample :
    monitor_wrapper (.ok 5 : Except Nat Nat) (fun _ => .error 7) = .error 7
    ∧ monitor_wrapper (.ok 5 : Except Nat Nat) (fun _ => .error 7) ≠ .ok 5 := by
  constructor
  · rfl
  · have h : monitor_wrapper (.ok 5 : Except Nat Nat) (fun _ => .error 7) = .error 7 := rfl
    rw [h]
    intro hc
    exact Except.noConfusion hc

/-- Claim C9 as amended: when recording succeeds the monitoring wrapper
preserves the wrapped result and exception exactly; and only
`log_slow_query` is fire-and-forget — its failing insert is swallowed.
A failure of `record_query` inside the decorator itself, however,
propagates (see the counterexample). -/
theorem monitor_preserves_when_recording_ok :
    (∀ (α : Type) (func : Except Nat α) (record : Bool → Except Nat Unit),
        (∀ b, record b = .ok ()) → monitor_wrapper func record = func)
    ∧ (∀ (c op : String) (duration : ℚ) (insert : SlowQueryDoc → Except Nat Unit),
        log_slow_query c op duration insert = .ok ()) := by
  constructor
  · intro α func record hrec
    cases func <;> simp [monitor_wrapper, hrec]
  · intro c op duration insert
    unfold log_slow_query
    by_cases h : (1 : ℚ) < duration
    · simp only [if_pos h]
      cases insert _ <;> rfl
    · simp [if_neg h]

/-- Closed witness for the amended C9 theorem: successful recording is
transparent, and a failing slow-query insert is swallowed. -/
theorem monitor_preserves_when_recording_ok_witness :
    monitor_wrapper (.ok 3 : Except Nat Nat) (fun _ => .ok ()) = .ok 3
    ∧ log_slow_query "users" "find" 2 (fun _ => .error 9) = .ok () :=
  ⟨monitor_preserves_when_recording_ok.1 Nat (.ok 3) (fun _ => .ok ()) (fun _ => rfl),
   monitor_preserves_when_recording_ok.2 "users" "find" 2 (fun _ => .error 9)⟩
